import Mathlib

/-!
Shallow embedding of the Mocktioneer prebid-server bidder adapter
(`src/openrtb_ext/imp_mocktioneer.go`, packages `openrtb_ext` and
`mocktioneer`), together with theorems settling the specification claims.

JSON blobs (impression extensions) are modelled by an explicit JSON value
type `Json`; `none : Option Json` stands for a `nil` byte slice.  The
external serializer for the outbound body and the external deserializer for
the inbound body are kept abstract as function parameters, since their code
lives outside this repository.  Machine `float64` parameters carry only
JSON-number values here (zero tests and echoing), so they are modelled by
`Rat`.  In-place mutation of the auction request is modelled by returning
the updated request alongside the results.
-/

namespace Mocktioneer

/-- JSON value, the model of the raw bytes held in `imp.Ext` and produced by
`json.Marshal` of the upstream extension payload. -/
inductive Json where
  | null : Json
  | bool (b : Bool) : Json
  | num (q : Rat) : Json
  | str (s : String) : Json
  | arr (elems : List Json) : Json
  | obj (fields : List (String × Json)) : Json

/-- Last-wins field lookup, matching Go `encoding/json` semantics for
duplicate object keys. -/
def jsonLookup (key : String) : List (String × Json) → Option Json
  | [] => none
  | (k, v) :: rest =>
    match jsonLookup key rest with
    | some v' => some v'
    | none => if k = key then some v else none

/-- Model of `openrtb_ext.ExtMocktioneer`: the contract for `impression.ext.bidder`
for the Mocktioneer adapter.  `Endpoint` overrides the bidder endpoint
per-request; `Bid` is a passthrough testing parameter (decimal CPM). -/
structure ExtMocktioneer where
  endpoint : String
  bid : Rat
deriving Repr, DecidableEq

/-- Model of `openrtb2.Device`: the fields the adapter reads (`UA`, `IPv6`, `IP`). -/
structure Device where
  ua : String
  ipv6 : String
  ip : String
deriving Repr, DecidableEq

/-- Model of `openrtb2.Imp`: one line item.  `video` and `native` record whether the
corresponding sub-object pointer is non-nil (only presence is read);
`ext` is the raw extension blob, `none` for a nil slice. -/
structure Imp where
  id : String
  video : Bool
  native : Bool
  ext : Option Json

/-- Model of `openrtb2.BidRequest`: the fields the adapter reads or writes. -/
structure BidRequest where
  imp : List Imp
  device : Option Device

/-- Decoding a JSON value into `ExtMocktioneer`, following Go struct
unmarshalling: top-level must be an object (or `null`, which leaves the
zero value); a present `endpoint` must be a string or `null`; a present
`bid` must be a number or `null`; any other shape is an error. -/
def decodeExtMocktioneer : Json → Except String ExtMocktioneer
  | Json.null => Except.ok ⟨"", 0⟩
  | Json.obj fields => do
    let endpoint ←
      match jsonLookup "endpoint" fields with
      | none => Except.ok ""
      | some (Json.str s) => Except.ok s
      | some Json.null => Except.ok ""
      | some _ => Except.error "cannot unmarshal into string"
    let bid ←
      match jsonLookup "bid" fields with
      | none => Except.ok (0 : Rat)
      | some (Json.num q) => Except.ok q
      | some Json.null => Except.ok (0 : Rat)
      | some _ => Except.error "cannot unmarshal into float64"
    Except.ok ⟨endpoint, bid⟩
  | _ => Except.error "cannot unmarshal into ExtMocktioneer"

/-- Unmarshalling `imp.Ext` into `adapters.ExtImpBidder` and extracting the
raw `bidder` field: a nil slice fails, a JSON object succeeds with the
`bidder` key's raw value (or nil when absent), `null` succeeds with a nil
`bidder`, anything else fails. -/
def extractBidderField : Option Json → Except String (Option Json)
  | none => Except.error "unexpected end of JSON input"
  | some Json.null => Except.ok none
  | some (Json.obj fields) => Except.ok (jsonLookup "bidder" fields)
  | some _ => Except.error "cannot unmarshal into ExtImpBidder"

/-- The `parseImpExt` function: unmarshal `imp.Ext` into the generic bidder wrapper, then
unmarshal its `bidder` field into `ExtMocktioneer`; each failure is reported
as the `BadInput` message `ext.bidder not provided`. -/
def parseImpExt (imp : Imp) : Except String ExtMocktioneer :=
  match extractBidderField imp.ext with
  | Except.error _ => Except.error "ext.bidder not provided"
  | Except.ok bidderRaw =>
    match bidderRaw with
    | none => Except.error "ext.bidder not provided"
    | some j =>
      match decodeExtMocktioneer j with
      | Except.error _ => Except.error "ext.bidder not provided"
      | Except.ok ext => Except.ok ext

/-- Result of `json.Marshal` on the local `upstreamExt` value
`{Mocktioneer: &upstreamExtMock{Bid: bid}}`: the minimal payload
`{"mocktioneer":{"bid":bid}}` (the pointer is non-nil and, at the call
site, `bid` is non-zero, so `omitempty` omits nothing). -/
def marshalUpstreamExt (bid : Rat) : Json :=
  Json.obj [("mocktioneer", Json.obj [("bid", Json.num bid)])]

/-- The body of the per-impression loop of `MakeRequests`: rewrite the
extension to the minimal upstream payload when the parse succeeded with a
non-zero `Bid`, otherwise clear it.  (The `json.Marshal` of the payload is
infallible for this value type, so the marshal-error branch that would
leave the extension untouched cannot fire.) -/
def rewriteImpExt (imp : Imp) : Imp :=
  match parseImpExt imp with
  | Except.ok ext =>
    if ext.bid ≠ 0 then
      { imp with ext := some (marshalUpstreamExt ext.bid) }
    else
      { imp with ext := none }
  | Except.error _ => { imp with ext := none }

/-- Header list in insertion order, modelling `http.Header` under `Add`
(which appends, so a key may repeat). -/
abbrev Header := List (String × String)

/-- The `getHeaders` function: the fixed content-type/accept/OpenRTB-version headers,
then, when device context is present, the non-empty user agent and the
IPv6 and IPv4 addresses as separate `X-Forwarded-For` entries. -/
def getHeaders (req : BidRequest) : Header :=
  let h : Header :=
    [("Content-Type", "application/json;charset=utf-8"),
     ("Accept", "application/json"),
     ("X-Openrtb-Version", "2.5")]
  match req.device with
  | none => h
  | some d =>
    let h := if 0 < d.ua.length then h ++ [("User-Agent", d.ua)] else h
    let h := if 0 < d.ipv6.length then h ++ [("X-Forwarded-For", d.ipv6)] else h
    if 0 < d.ip.length then h ++ [("X-Forwarded-For", d.ip)] else h

/-- Opaque serialized bytes. -/
abbrev Bytes := List Nat

/-- Errors surfaced by the adapter, tagged by their `errortypes` class. -/
inductive AdapterError where
  | badInput (msg : String)
  | badServerResponse (msg : String)
  | resolveErr (msg : String)
  | encodeErr (msg : String)
deriving Repr, DecidableEq

/-- Model of `adapters.RequestData`: one outbound request. -/
structure RequestData where
  method : String
  uri : String
  body : Bytes
  headers : Header
  impIDs : List String

/-- Modelled from the spec: `openrtb_ext.GetImpIDs` (not part of the sources
here) computes the list of line-item IDs the outbound request covers. -/
def GetImpIDs (imps : List Imp) : List String :=
  imps.map Imp.id

/-- The adapter's endpoint template.  Since the adapter always expands the
template with an empty macro-parameter set, the template is modelled by the
outcome of that expansion (the `macros.ResolveMacros` call on it). -/
structure Template where
  resolveEmpty : Except String String

/-- The `adapter` struct: its parsed endpoint template. -/
structure Adapter where
  endpoint : Template

/-- Result of `MakeRequests`: the auction request after its in-place
mutation, plus the returned request list and error list. -/
structure MakeRequestsResult where
  request : BidRequest
  requests : List RequestData
  errors : List AdapterError

/-- The per-imp-0 endpoint override of `MakeRequests`: the parsed
`Endpoint` of the first line item when it is non-empty, else `""`. -/
def endpointOverride (imps : List Imp) : String :=
  match imps with
  | [] => ""
  | imp0 :: _ =>
    match parseImpExt imp0 with
    | Except.ok ext => if 0 < ext.endpoint.length then ext.endpoint else ""
    | Except.error _ => ""

/-- The `MakeRequests` method: read the per-imp endpoint override from the first line
item, rewrite every line item's extension in place, resolve the endpoint
(template expansion only when no override), serialize the mutated request
via the external encoder `enc`, and return a single `RequestData`. -/
def MakeRequests (a : Adapter) (enc : BidRequest → Except String Bytes)
    (ortbReq : BidRequest) : MakeRequestsResult :=
  let override := endpointOverride ortbReq.imp
  let req' : BidRequest := { ortbReq with imp := ortbReq.imp.map rewriteImpExt }
  let resolved : Except AdapterError String :=
    if override = "" then
      match a.endpoint.resolveEmpty with
      | Except.ok url => Except.ok url
      | Except.error e => Except.error (AdapterError.resolveErr e)
    else
      Except.ok override
  match resolved with
  | Except.error e => ⟨req', [], [e]⟩
  | Except.ok endpointURL =>
    match enc req' with
    | Except.error e => ⟨req', [], [AdapterError.encodeErr e]⟩
    | Except.ok body =>
      ⟨req',
       [{ method := "POST", uri := endpointURL, body := body,
          headers := getHeaders req', impIDs := GetImpIDs req'.imp }],
       []⟩

/-- Model of `openrtb2.Bid`: the fields the adapter reads (`ImpID`; `Price` kept for
completeness). -/
structure Bid where
  impID : String
  price : Rat
deriving Repr, DecidableEq

/-- Model of `openrtb2.SeatBid`: one seat's bid list. -/
structure SeatBid where
  bid : List Bid
deriving Repr, DecidableEq

/-- Model of `openrtb2.BidResponse`: the fields the adapter reads. -/
structure BidResponse where
  cur : String
  seatBid : List SeatBid
deriving Repr, DecidableEq

/-- Model of `adapters.ResponseData`: status code and raw body from the transport. -/
structure ResponseData where
  statusCode : Int
  body : Bytes

/-- Model of `openrtb_ext.BidType`: inferred media type of a bid. -/
inductive BidType where
  | banner
  | video
  | native
deriving Repr, DecidableEq

/-- Model of `adapters.TypedBid`: a bid paired with its inferred media type. -/
structure TypedBid where
  bid : Bid
  bidType : BidType
deriving Repr, DecidableEq

/-- Model of `adapters.BidderResponse`: the adapter's result. -/
structure BidderResponse where
  currency : String
  bids : List TypedBid
deriving Repr, DecidableEq

/-- Modelled from the spec: `adapters.NewBidderResponseWithBidsCapacity`
(not part of the sources here) creates a result with the default currency
and an empty bid list; the capacity argument only pre-sizes the list. -/
def NewBidderResponseWithBidsCapacity (_capacity : Nat) : BidderResponse :=
  { currency := "USD", bids := [] }

/-- The `mediaTypeForImp` function: scan the line items for the bid's impression ID;
video if the matching item has a video sub-object, else native if it has a
native sub-object, else banner, also when no item matches. -/
def mediaTypeForImp (impID : String) (imps : List Imp) : BidType :=
  match imps with
  | [] => BidType.banner
  | imp :: rest =>
    if imp.id = impID then
      if imp.video then BidType.video
      else if imp.native then BidType.native
      else BidType.banner
    else mediaTypeForImp impID rest

/-- Result of `MakeBids`: the (possibly nil) bidder response and errors. -/
structure MakeBidsResult where
  response : Option BidderResponse
  errors : List AdapterError
deriving Repr, DecidableEq

/-- The `MakeBids` method: 204 is a no-bid success; any status other than 200 is a
`BadServerResponse` carrying the status; a 200 body is decoded by the
external decoder `dec`, an empty seat-bid list is rejected, and otherwise
one `TypedBid` per bid of the first seat is emitted in order, with the
response currency applied when non-empty. -/
def MakeBids (dec : Bytes → Except String BidResponse) (ortbReq : BidRequest)
    (respData : ResponseData) : MakeBidsResult :=
  if respData.statusCode = 204 then
    ⟨none, []⟩
  else if respData.statusCode ≠ 200 then
    ⟨none, [AdapterError.badServerResponse
              ("unexpected status: " ++ toString respData.statusCode)]⟩
  else
    match dec respData.body with
    | Except.error _ =>
      ⟨none, [AdapterError.badServerResponse "invalid JSON"]⟩
    | Except.ok bidResp =>
      match bidResp.seatBid with
      | [] => ⟨none, [AdapterError.badServerResponse "empty seatbid"]⟩
      | sb :: _ =>
        let br := NewBidderResponseWithBidsCapacity 5
        let br := if bidResp.cur ≠ "" then { br with currency := bidResp.cur } else br
        ⟨some { br with
                bids := sb.bid.map fun b =>
                  { bid := b, bidType := mediaTypeForImp b.impID ortbReq.imp } },
         []⟩

/-! Helper lemmas shared by the claim theorems. -/

theorem string_pos_iff_ne_empty (s : String) : 0 < s.length ↔ s ≠ "" := by
  cases s with
  | mk data =>
    cases data with
    | nil => simp [String.length]
    | cons c cs =>
      constructor
      · intro _ h
        have hdata := congrArg String.data h
        simp at hdata
      · intro _
        simp [String.length]

theorem makeRequests_request (a : Adapter) (enc : BidRequest → Except String Bytes)
    (ortbReq : BidRequest) :
    (MakeRequests a enc ortbReq).request =
      { ortbReq with imp := ortbReq.imp.map rewriteImpExt } := by
  unfold MakeRequests
  dsimp only
  split
  · rfl
  · split <;> rfl

/-- C3: `MakeBids` is a state machine over the HTTP status code: 204 yields
zero bids and zero errors; 200 proceeds to decoding the body; any other
status yields zero bids and exactly one server-response error whose message
carries that status code. -/
theorem makeBids_status_state_machine (dec : Bytes → Except String BidResponse)
    (ortbReq : BidRequest) (respData : ResponseData) :
    (respData.statusCode = 204 →
      MakeBids dec ortbReq respData = ⟨none, []⟩) ∧
    (respData.statusCode ≠ 204 → respData.statusCode ≠ 200 →
      MakeBids dec ortbReq respData =
        ⟨none, [AdapterError.badServerResponse
                  ("unexpected status: " ++ toString respData.statusCode)]⟩) ∧
    (respData.statusCode = 200 →
      MakeBids dec ortbReq respData =
        match dec respData.body with
        | Except.error _ =>
          ⟨none, [AdapterError.badServerResponse "invalid JSON"]⟩
        | Except.ok bidResp =>
          match bidResp.seatBid with
          | [] => ⟨none, [AdapterError.badServerResponse "empty seatbid"]⟩
          | sb :: _ =>
            let br := NewBidderResponseWithBidsCapacity 5
            let br := if bidResp.cur ≠ "" then { br with currency := bidResp.cur }
                      else br
            ⟨some { br with
                    bids := sb.bid.map fun b =>
                      { bid := b,
                        bidType := mediaTypeForImp b.impID ortbReq.imp } },
             []⟩) := by
  refine ⟨fun h204 => ?_, fun h204 h200 => ?_, fun h200 => ?_⟩
  · simp [MakeBids, h204]
  · simp [MakeBids, h204, h200]
  · simp [MakeBids, h200]

/-- C3 witness at concrete inputs for each hypothesis's branch. -/
theorem makeBids_status_state_machine_witness :
    MakeBids (fun _ => Except.error "e") ⟨[], none⟩ ⟨204, []⟩ = ⟨none, []⟩ ∧
    MakeBids (fun _ => Except.error "e") ⟨[], none⟩ ⟨500, []⟩ =
      ⟨none, [AdapterError.badServerResponse "unexpected status: 500"]⟩ :=
  ⟨(makeBids_status_state_machine (fun _ => Except.error "e") ⟨[], none⟩
      ⟨204, []⟩).1 rfl,
   (makeBids_status_state_machine (fun _ => Except.error "e") ⟨[], none⟩
      ⟨500, []⟩).2.1 (by decide) (by decide)⟩

/-- C5: on a 200-status response, a body that fails to decode yields zero
bids and exactly one `invalid JSON` server-response error, and a decoded
body with an empty seat-bid collection yields zero bids and exactly one
`empty seatbid` server-response error. -/
theorem makeBids_status200_decode_errors (dec : Bytes → Except String BidResponse)
    (ortbReq : BidRequest) (respData : ResponseData)
    (h200 : respData.statusCode = 200) :
    (∀ e, dec respData.body = Except.error e →
      MakeBids dec ortbReq respData =
        ⟨none, [AdapterError.badServerResponse "invalid JSON"]⟩) ∧
    (∀ bidResp, dec respData.body = Except.ok bidResp → bidResp.seatBid = [] →
      MakeBids dec ortbReq respData =
        ⟨none, [AdapterError.badServerResponse "empty seatbid"]⟩) := by
  constructor
  · intro e hdec
    simp [MakeBids, h200, hdec]
  · intro bidResp hdec hsb
    simp [MakeBids, h200, hdec, hsb]

/-- C5 witness: a decoder that rejects, and one that returns an empty
seat-bid collection, each at a concrete 200 response. -/
theorem makeBids_status200_decode_errors_witness :
    MakeBids (fun _ => Except.error "bad") ⟨[], none⟩ ⟨200, []⟩ =
      ⟨none, [AdapterError.badServerResponse "invalid JSON"]⟩ ∧
    MakeBids (fun _ => Except.ok ⟨"", []⟩) ⟨[], none⟩ ⟨200, []⟩ =
      ⟨none, [AdapterError.badServerResponse "empty seatbid"]⟩ :=
  ⟨(makeBids_status200_decode_errors (fun _ => Except.error "bad") ⟨[], none⟩
      ⟨200, []⟩ rfl).1 "bad" rfl,
   (makeBids_status200_decode_errors (fun _ => Except.ok ⟨"", []⟩) ⟨[], none⟩
      ⟨200, []⟩ rfl).2 ⟨"", []⟩ rfl rfl⟩

/-- C4: every TypedBid's media type is computed solely from the line item
of the original request whose ID matches the bid's impression ID (first
match): video beats native beats banner, and banner is also returned when
no line item matches.  The upstream response body never enters
`mediaTypeForImp`. -/
theorem mediaType_from_request_only (dec : Bytes → Except String BidResponse)
    (ortbReq : BidRequest) (respData : ResponseData) :
    (∀ br, (MakeBids dec ortbReq respData).response = some br →
      ∀ tb ∈ br.bids, tb.bidType = mediaTypeForImp tb.bid.impID ortbReq.imp) ∧
    (∀ impID imps,
      mediaTypeForImp impID imps =
        match imps.find? (fun imp => imp.id == impID) with
        | none => BidType.banner
        | some imp =>
          if imp.video then BidType.video
          else if imp.native then BidType.native
          else BidType.banner) := by
  constructor
  · intro br hbr tb htb
    unfold MakeBids at hbr
    by_cases h204 : respData.statusCode = 204
    · simp [h204] at hbr
    by_cases h200 : respData.statusCode = 200
    · rcases hdec : dec respData.body with e | bidResp
      · simp [h204, h200, hdec] at hbr
      rcases hsb : bidResp.seatBid with _ | ⟨sb, rest⟩
      · simp [h204, h200, hdec, hsb] at hbr
      · simp [h204, h200, hdec, hsb] at hbr
        subst hbr
        simp only [List.mem_map] at htb
        obtain ⟨b, _, rfl⟩ := htb
        rfl
    · simp [h204, h200] at hbr
  · intro impID imps
    induction imps with
    | nil => rfl
    | cons imp rest ih =>
      by_cases h : imp.id = impID
      · rw [mediaTypeForImp, List.find?_cons_of_pos _ (by simpa using h)]
        simp [h]
      · rw [mediaTypeForImp, List.find?_cons_of_neg _ (by simpa using h)]
        simp [h, ih]

/-- C4 witness: a bid matching a video line item is typed video, and with
a banner-only line item the same scan yields banner. -/
theorem mediaType_from_request_only_witness :
    ({ bid := ⟨"v", 1⟩, bidType := BidType.video } : TypedBid).bidType =
      mediaTypeForImp "v" [⟨"v", true, false, none⟩] ∧
    mediaTypeForImp "b" [⟨"b", false, false, none⟩] =
      match [(⟨"b", false, false, none⟩ : Imp)].find? (fun imp => imp.id == "b") with
      | none => BidType.banner
      | some imp =>
        if imp.video then BidType.video
        else if imp.native then BidType.native
        else BidType.banner :=
  ⟨(mediaType_from_request_only (fun _ => Except.ok ⟨"", [⟨[⟨"v", 1⟩]⟩]⟩)
      ⟨[⟨"v", true, false, none⟩], none⟩ ⟨200, []⟩).1
      ⟨"USD", [{ bid := ⟨"v", 1⟩, bidType := BidType.video }]⟩ (by simp [MakeBids,
        NewBidderResponseWithBidsCapacity, mediaTypeForImp])
      { bid := ⟨"v", 1⟩, bidType := BidType.video } (by simp),
   (mediaType_from_request_only (fun _ => Except.error "e") ⟨[], none⟩
      ⟨204, []⟩).2 "b" [⟨"b", false, false, none⟩]⟩

/-- C7: the outbound header list always carries the JSON content-type, the
JSON accept header and the OpenRTB version marker; with device context the
non-empty user agent is forwarded, and the IPv6 and IPv4 addresses are
forwarded as separate `X-Forwarded-For` entries, duplicating that key when
both are present. -/
theorem getHeaders_contents (req : BidRequest) :
    ("Content-Type", "application/json;charset=utf-8") ∈ getHeaders req ∧
    ("Accept", "application/json") ∈ getHeaders req ∧
    ("X-Openrtb-Version", "2.5") ∈ getHeaders req ∧
    ∀ d, req.device = some d →
      (d.ua ≠ "" → ("User-Agent", d.ua) ∈ getHeaders req) ∧
      (d.ipv6 ≠ "" → ("X-Forwarded-For", d.ipv6) ∈ getHeaders req) ∧
      (d.ip ≠ "" → ("X-Forwarded-For", d.ip) ∈ getHeaders req) ∧
      (d.ipv6 ≠ "" → d.ip ≠ "" →
        ((getHeaders req).filter fun p => p.1 == "X-Forwarded-For") =
          [("X-Forwarded-For", d.ipv6), ("X-Forwarded-For", d.ip)]) := by
  rcases hdev : req.device with _ | d
  · simp [getHeaders, hdev]
  · refine ⟨?_, ?_, ?_, ?_⟩
    · simp only [getHeaders, hdev]
      split_ifs <;> simp
    · simp only [getHeaders, hdev]
      split_ifs <;> simp
    · simp only [getHeaders, hdev]
      split_ifs <;> simp
    · intro d' hd'
      obtain rfl : d = d' := by injection hd'
      refine ⟨?_, ?_, ?_, ?_⟩
      · intro hua
        simp only [getHeaders, hdev]
        split_ifs with h1 h2 h3 <;>
          simp_all [string_pos_iff_ne_empty]
      · intro hipv6
        simp only [getHeaders, hdev]
        split_ifs with h1 h2 h3 <;>
          simp_all [string_pos_iff_ne_empty]
      · intro hip
        simp only [getHeaders, hdev]
        split_ifs with h1 h2 h3 <;>
          simp_all [string_pos_iff_ne_empty]
      · intro hipv6 hip
        simp only [getHeaders, hdev]
        split_ifs with h1 h2 h3 <;>
          simp_all [string_pos_iff_ne_empty, List.filter_append]

/-- C7 witness: a device with user agent, IPv6 and IPv4 set. -/
theorem getHeaders_contents_witness :
    ("X-Forwarded-For", "2001:db8::1") ∈
        getHeaders ⟨[], some ⟨"UA/1.0", "2001:db8::1", "203.0.113.7"⟩⟩ ∧
    ((getHeaders ⟨[], some ⟨"UA/1.0", "2001:db8::1", "203.0.113.7"⟩⟩).filter
        fun p => p.1 == "X-Forwarded-For") =
      [("X-Forwarded-For", "2001:db8::1"), ("X-Forwarded-For", "203.0.113.7")] :=
  ⟨((getHeaders_contents ⟨[], some ⟨"UA/1.0", "2001:db8::1", "203.0.113.7"⟩⟩).2.2.2
      ⟨"UA/1.0", "2001:db8::1", "203.0.113.7"⟩ rfl).2.1 (by decide),
   ((getHeaders_contents ⟨[], some ⟨"UA/1.0", "2001:db8::1", "203.0.113.7"⟩⟩).2.2.2
      ⟨"UA/1.0", "2001:db8::1", "203.0.113.7"⟩ rfl).2.2.2 (by decide) (by decide)⟩

/-- C8: a successfully decoded response with a non-empty seat-bid
collection yields exactly one TypedBid per bid of the first seat, in the
seat's order; later seats never contribute. -/
theorem makeBids_first_seat_in_order (dec : Bytes → Except String BidResponse)
    (ortbReq : BidRequest) (respData : ResponseData)
    (bidResp : BidResponse) (sb : SeatBid) (rest : List SeatBid)
    (h200 : respData.statusCode = 200)
    (hdec : dec respData.body = Except.ok bidResp)
    (hsb : bidResp.seatBid = sb :: rest) :
    ∃ br, (MakeBids dec ortbReq respData).response = some br ∧
      (MakeBids dec ortbReq respData).errors = [] ∧
      br.bids = sb.bid.map (fun b =>
        { bid := b, bidType := mediaTypeForImp b.impID ortbReq.imp }) ∧
      br.bids.map TypedBid.bid = sb.bid := by
  have hmb : MakeBids dec ortbReq respData =
      ⟨some { currency := if bidResp.cur ≠ "" then bidResp.cur else "USD",
              bids := sb.bid.map fun b =>
                { bid := b, bidType := mediaTypeForImp b.impID ortbReq.imp } },
       []⟩ := by
    by_cases hcur : bidResp.cur = "" <;>
      simp [MakeBids, h200, hdec, hsb, hcur, NewBidderResponseWithBidsCapacity]
  refine ⟨_, by rw [hmb], by rw [hmb], rfl, ?_⟩
  rw [List.map_map,
    show (TypedBid.bid ∘ fun b =>
        ({ bid := b, bidType := mediaTypeForImp b.impID ortbReq.imp } : TypedBid))
      = id from rfl,
    List.map_id]

/-- C8 witness: two bids in the first seat are mapped in order; the second
seat is discarded. -/
theorem makeBids_first_seat_in_order_witness :
    ∃ br, (MakeBids
        (fun _ => Except.ok ⟨"EUR", [⟨[⟨"a", 1⟩, ⟨"b", 2⟩]⟩, ⟨[⟨"c", 3⟩]⟩]⟩)
        ⟨[], none⟩ ⟨200, []⟩).response = some br ∧
      (MakeBids
        (fun _ => Except.ok ⟨"EUR", [⟨[⟨"a", 1⟩, ⟨"b", 2⟩]⟩, ⟨[⟨"c", 3⟩]⟩]⟩)
        ⟨[], none⟩ ⟨200, []⟩).errors = [] ∧
      br.bids = ([⟨"a", 1⟩, ⟨"b", 2⟩] : List Bid).map (fun b =>
        { bid := b, bidType := mediaTypeForImp b.impID ([] : List Imp) }) ∧
      br.bids.map TypedBid.bid = [⟨"a", 1⟩, ⟨"b", 2⟩] :=
  makeBids_first_seat_in_order
    (fun _ => Except.ok ⟨"EUR", [⟨[⟨"a", 1⟩, ⟨"b", 2⟩]⟩, ⟨[⟨"c", 3⟩]⟩]⟩)
    ⟨[], none⟩ ⟨200, []⟩ ⟨"EUR", [⟨[⟨"a", 1⟩, ⟨"b", 2⟩]⟩, ⟨[⟨"c", 3⟩]⟩]⟩
    ⟨[⟨"a", 1⟩, ⟨"b", 2⟩]⟩ [⟨[⟨"c", 3⟩]⟩] rfl rfl rfl

/-! Equation lemmas for the branches of `MakeRequests`, and sample inputs
used by the witnesses. -/

theorem makeRequests_eq_ok (a : Adapter) (enc : BidRequest → Except String Bytes)
    (req : BidRequest) (url : String) (body : Bytes)
    (hov : endpointOverride req.imp = "")
    (hres : a.endpoint.resolveEmpty = Except.ok url)
    (henc : enc { req with imp := req.imp.map rewriteImpExt } = Except.ok body) :
    MakeRequests a enc req =
      ⟨{ req with imp := req.imp.map rewriteImpExt },
       [{ method := "POST", uri := url, body := body,
          headers := getHeaders { req with imp := req.imp.map rewriteImpExt },
          impIDs := GetImpIDs (req.imp.map rewriteImpExt) }],
       []⟩ := by
  unfold MakeRequests
  simp [hov, hres, henc]

theorem makeRequests_eq_override (a : Adapter) (enc : BidRequest → Except String Bytes)
    (req : BidRequest) (body : Bytes)
    (hov : endpointOverride req.imp ≠ "")
    (henc : enc { req with imp := req.imp.map rewriteImpExt } = Except.ok body) :
    MakeRequests a enc req =
      ⟨{ req with imp := req.imp.map rewriteImpExt },
       [{ method := "POST", uri := endpointOverride req.imp, body := body,
          headers := getHeaders { req with imp := req.imp.map rewriteImpExt },
          impIDs := GetImpIDs (req.imp.map rewriteImpExt) }],
       []⟩ := by
  unfold MakeRequests
  simp [hov, henc]

theorem makeRequests_eq_resolveFail (a : Adapter)
    (enc : BidRequest → Except String Bytes) (req : BidRequest) (msg : String)
    (hov : endpointOverride req.imp = "")
    (hres : a.endpoint.resolveEmpty = Except.error msg) :
    MakeRequests a enc req =
      ⟨{ req with imp := req.imp.map rewriteImpExt }, [],
       [AdapterError.resolveErr msg]⟩ := by
  unfold MakeRequests
  simp [hov, hres]

theorem makeRequests_eq_encFail (a : Adapter)
    (enc : BidRequest → Except String Bytes) (req : BidRequest)
    (url msg : String)
    (hres : (endpointOverride req.imp = "" ∧ a.endpoint.resolveEmpty = Except.ok url)
            ∨ endpointOverride req.imp ≠ "")
    (henc : enc { req with imp := req.imp.map rewriteImpExt } = Except.error msg) :
    MakeRequests a enc req =
      ⟨{ req with imp := req.imp.map rewriteImpExt }, [],
       [AdapterError.encodeErr msg]⟩ := by
  unfold MakeRequests
  rcases hres with ⟨hov, hres⟩ | hov
  · simp [hov, hres, henc]
  · simp [hov, henc]

theorem endpointOverride_cases (imps : List Imp) :
    (endpointOverride imps = "" ∧
      ¬ ∃ imp0 rest e, imps = imp0 :: rest ∧ parseImpExt imp0 = Except.ok e ∧
          e.endpoint ≠ "") ∨
    (∃ imp0 rest e, imps = imp0 :: rest ∧ parseImpExt imp0 = Except.ok e ∧
        e.endpoint ≠ "" ∧ endpointOverride imps = e.endpoint) := by
  cases imps with
  | nil =>
    left
    refine ⟨rfl, ?_⟩
    rintro ⟨imp0, rest, e, heq, -, -⟩
    simp at heq
  | cons imp0 rest =>
    rcases hp : parseImpExt imp0 with msg | e
    · left
      refine ⟨by simp [endpointOverride, hp], ?_⟩
      rintro ⟨i0, r, e, heq, hok, -⟩
      injection heq with h1 h2
      subst h1
      rw [hp] at hok
      simp at hok
    · by_cases hlen : 0 < e.endpoint.length
      · right
        exact ⟨imp0, rest, e, rfl, hp, (string_pos_iff_ne_empty _).mp hlen,
          by simp [endpointOverride, hp, hlen]⟩
      · left
        have hemp : e.endpoint = "" := by
          by_contra hne
          exact hlen ((string_pos_iff_ne_empty _).mpr hne)
        refine ⟨by simp [endpointOverride, hp, hlen], ?_⟩
        rintro ⟨i0, r, e', heq, hok, hne⟩
        injection heq with h1 h2
        subst h1
        rw [hp] at hok
        injection hok with h3
        subst h3
        exact hne hemp

theorem rewriteImpExt_fields (imp : Imp) :
    (rewriteImpExt imp).id = imp.id ∧ (rewriteImpExt imp).video = imp.video ∧
      (rewriteImpExt imp).native = imp.native := by
  unfold rewriteImpExt
  split
  · split <;> exact ⟨rfl, rfl, rfl⟩
  · exact ⟨rfl, rfl, rfl⟩

/-- A sample adapter whose template resolves successfully. -/
def sampleAdapter : Adapter := ⟨⟨Except.ok "https://resolved.example/auction"⟩⟩

/-- A sample encoder that always succeeds. -/
def sampleEnc : BidRequest → Except String Bytes := fun _ => Except.ok [123]

/-- A sample line item whose extension parses with `bid = 5`. -/
def sampleBidImp : Imp :=
  ⟨"imp1", false, false, some (Json.obj [("bidder", Json.obj [("bid", Json.num 5)])])⟩

/-- A sample request with one line item and no device. -/
def sampleReq : BidRequest := ⟨[sampleBidImp], none⟩

/-- A sample line item whose extension carries an endpoint override. -/
def sampleOverrideImp : Imp :=
  ⟨"imp2", false, false,
   some (Json.obj [("bidder",
     Json.obj [("endpoint", Json.str "https://override.example/ep")])])⟩

/-- A sample request whose first line item overrides the endpoint. -/
def sampleOverrideReq : BidRequest := ⟨[sampleOverrideImp], none⟩

/-- A sample request with no line items. -/
def sampleEmptyReq : BidRequest := ⟨[], none⟩

/-- C1: after `MakeRequests`, a line item whose extension parsed with a
non-zero `Bid` carries exactly the minimal payload
`{"mocktioneer":{"bid":Bid}}`; with a zero `Bid` or a failed parse its
extension is cleared, so the original bidder-params wrapper never
survives. -/
theorem makeRequests_ext_two_shapes (a : Adapter)
    (enc : BidRequest → Except String Bytes) (req : BidRequest) (i : Nat)
    (imp imp' : Imp) (h : req.imp[i]? = some imp)
    (h' : (MakeRequests a enc req).request.imp[i]? = some imp') :
    (∀ e, parseImpExt imp = Except.ok e →
      (e.bid ≠ 0 → imp'.ext =
          some (Json.obj [("mocktioneer", Json.obj [("bid", Json.num e.bid)])])) ∧
      (e.bid = 0 → imp'.ext = none)) ∧
    (∀ msg, parseImpExt imp = Except.error msg → imp'.ext = none) := by
  rw [makeRequests_request] at h'
  simp only [List.getElem?_map, h, Option.map_some'] at h'
  injection h' with h'
  subst h'
  constructor
  · intro e he
    constructor
    · intro hbid
      simp [rewriteImpExt, he, hbid, marshalUpstreamExt]
    · intro hbid
      simp [rewriteImpExt, he, hbid]
  · intro msg hmsg
    simp [rewriteImpExt, hmsg]

/-- C1 witness: the sample line item with `bid = 5` ends up carrying
exactly the minimal payload. -/
theorem makeRequests_ext_two_shapes_witness :
    (MakeRequests sampleAdapter sampleEnc sampleReq).request.imp[0]? =
      some ⟨"imp1", false, false,
        some (Json.obj [("mocktioneer", Json.obj [("bid", Json.num 5)])])⟩ ∧
    (⟨"imp1", false, false,
        some (Json.obj [("mocktioneer", Json.obj [("bid", Json.num 5)])])⟩ : Imp).ext =
      some (Json.obj [("mocktioneer", Json.obj [("bid", Json.num 5)])]) := by
  have h0 : (MakeRequests sampleAdapter sampleEnc sampleReq).request.imp[0]? =
      some ⟨"imp1", false, false,
        some (Json.obj [("mocktioneer", Json.obj [("bid", Json.num 5)])])⟩ := rfl
  exact ⟨h0, ((makeRequests_ext_two_shapes sampleAdapter sampleEnc sampleReq 0
      sampleBidImp _ rfl h0).1 ⟨"", 5⟩ rfl).1 (by norm_num)⟩

/-- C2: each produced outbound request's URL is the first line item's
non-empty parsed endpoint override verbatim when there is one, and the
successfully expanded configured template otherwise. -/
theorem makeRequests_resolved_url (a : Adapter)
    (enc : BidRequest → Except String Bytes) (req : BidRequest)
    (rd : RequestData) (hrd : rd ∈ (MakeRequests a enc req).requests) :
    (∃ imp0 rest e, req.imp = imp0 :: rest ∧ parseImpExt imp0 = Except.ok e ∧
        e.endpoint ≠ "" ∧ rd.uri = e.endpoint) ∨
    ((¬ ∃ imp0 rest e, req.imp = imp0 :: rest ∧ parseImpExt imp0 = Except.ok e ∧
        e.endpoint ≠ "") ∧ a.endpoint.resolveEmpty = Except.ok rd.uri) := by
  rcases endpointOverride_cases req.imp with ⟨hov, hnex⟩ |
    ⟨imp0, rest, e, heq, hok, hne, hove⟩
  · right
    refine ⟨hnex, ?_⟩
    rcases hres : a.endpoint.resolveEmpty with msg | url
    · rw [makeRequests_eq_resolveFail a enc req msg hov hres] at hrd
      simp at hrd
    · rcases henc : enc { req with imp := req.imp.map rewriteImpExt } with msg | body
      · rw [makeRequests_eq_encFail a enc req url msg (Or.inl ⟨hov, hres⟩) henc] at hrd
        simp at hrd
      · rw [makeRequests_eq_ok a enc req url body hov hres henc] at hrd
        simp at hrd
        subst hrd
        rfl
  · left
    have hov : endpointOverride req.imp ≠ "" := by rw [hove]; exact hne
    rcases henc : enc { req with imp := req.imp.map rewriteImpExt } with msg | body
    · rw [makeRequests_eq_encFail a enc req "" msg (Or.inr hov) henc] at hrd
      simp at hrd
    · rw [makeRequests_eq_override a enc req body hov henc] at hrd
      simp at hrd
      subst hrd
      exact ⟨imp0, rest, e, heq, hok, hne, hove⟩

/-- C2 witness: the sample override request produces a request whose URL is
the override, not the configured template's expansion. -/
theorem makeRequests_resolved_url_witness :
    (∃ imp0 rest e, sampleOverrideReq.imp = imp0 :: rest ∧
        parseImpExt imp0 = Except.ok e ∧ e.endpoint ≠ "" ∧
        ({ method := "POST", uri := "https://override.example/ep", body := [123],
           headers := getHeaders
             { sampleOverrideReq with
               imp := sampleOverrideReq.imp.map rewriteImpExt },
           impIDs := ["imp2"] } : RequestData).uri = e.endpoint) ∨
    ((¬ ∃ imp0 rest e, sampleOverrideReq.imp = imp0 :: rest ∧
        parseImpExt imp0 = Except.ok e ∧ e.endpoint ≠ "") ∧
      sampleAdapter.endpoint.resolveEmpty = Except.ok
        ({ method := "POST", uri := "https://override.example/ep", body := [123],
           headers := getHeaders
             { sampleOverrideReq with
               imp := sampleOverrideReq.imp.map rewriteImpExt },
           impIDs := ["imp2"] } : RequestData).uri) := by
  refine makeRequests_resolved_url sampleAdapter sampleEnc sampleOverrideReq _ ?_
  rw [makeRequests_eq_override sampleAdapter sampleEnc sampleOverrideReq [123]
    (by decide) rfl]
  exact List.mem_singleton.mpr rfl

/-- C6: `MakeRequests` returns either exactly one outbound request with no
errors, or no requests with a non-empty error list; a macro-resolution
error and a body-encoding error each produce the failure outcome. -/
theorem makeRequests_all_or_nothing (a : Adapter)
    (enc : BidRequest → Except String Bytes) (req : BidRequest) :
    ((MakeRequests a enc req).requests.length = 1 ∧
        (MakeRequests a enc req).errors = [] ∨
      (MakeRequests a enc req).requests = [] ∧
        (MakeRequests a enc req).errors ≠ []) ∧
    (∀ msg, endpointOverride req.imp = "" →
      a.endpoint.resolveEmpty = Except.error msg →
      (MakeRequests a enc req).requests = [] ∧
        (MakeRequests a enc req).errors = [AdapterError.resolveErr msg]) ∧
    (∀ msg, enc { req with imp := req.imp.map rewriteImpExt } = Except.error msg →
      (MakeRequests a enc req).requests = [] ∧
        (MakeRequests a enc req).errors ≠ []) := by
  refine ⟨?_, ?_, ?_⟩
  · by_cases hov : endpointOverride req.imp = ""
    · rcases hres : a.endpoint.resolveEmpty with msg | url
      · right
        rw [makeRequests_eq_resolveFail a enc req msg hov hres]
        exact ⟨rfl, by simp⟩
      · rcases henc : enc { req with imp := req.imp.map rewriteImpExt } with msg | body
        · right
          rw [makeRequests_eq_encFail a enc req url msg (Or.inl ⟨hov, hres⟩) henc]
          exact ⟨rfl, by simp⟩
        · left
          rw [makeRequests_eq_ok a enc req url body hov hres henc]
          exact ⟨rfl, rfl⟩
    · rcases henc : enc { req with imp := req.imp.map rewriteImpExt } with msg | body
      · right
        rw [makeRequests_eq_encFail a enc req "" msg (Or.inr hov) henc]
        exact ⟨rfl, by simp⟩
      · left
        rw [makeRequests_eq_override a enc req body hov henc]
        exact ⟨rfl, rfl⟩
  · intro msg hov hres
    rw [makeRequests_eq_resolveFail a enc req msg hov hres]
    exact ⟨rfl, rfl⟩
  · intro msg henc
    by_cases hov : endpointOverride req.imp = ""
    · rcases hres : a.endpoint.resolveEmpty with msg' | url
      · rw [makeRequests_eq_resolveFail a enc req msg' hov hres]
        exact ⟨rfl, by simp⟩
      · rw [makeRequests_eq_encFail a enc req url msg (Or.inl ⟨hov, hres⟩) henc]
        exact ⟨rfl, by simp⟩
    · rw [makeRequests_eq_encFail a enc req "" msg (Or.inr hov) henc]
      exact ⟨rfl, by simp⟩

/-- C6 witness: a failing template resolution yields zero requests and the
resolution error. -/
theorem makeRequests_all_or_nothing_witness :
    (MakeRequests ⟨⟨Except.error "boom"⟩⟩ sampleEnc sampleReq).requests = [] ∧
    (MakeRequests ⟨⟨Except.error "boom"⟩⟩ sampleEnc sampleReq).errors =
      [AdapterError.resolveErr "boom"] :=
  (makeRequests_all_or_nothing ⟨⟨Except.error "boom"⟩⟩ sampleEnc sampleReq).2.1
    "boom" rfl rfl

/-- C9: `MakeRequests` only mutates line-item extensions: line-item count,
IDs, video/native sub-objects and the device context are unchanged. -/
theorem makeRequests_frame (a : Adapter)
    (enc : BidRequest → Except String Bytes) (req : BidRequest) :
    (MakeRequests a enc req).request.imp.length = req.imp.length ∧
    (MakeRequests a enc req).request.device = req.device ∧
    ∀ (i : Nat) (imp imp' : Imp), req.imp[i]? = some imp →
      (MakeRequests a enc req).request.imp[i]? = some imp' →
      imp'.id = imp.id ∧ imp'.video = imp.video ∧ imp'.native = imp.native := by
  refine ⟨?_, ?_, ?_⟩
  · rw [makeRequests_request]
    simp
  · rw [makeRequests_request]
  · intro i imp imp' h h'
    rw [makeRequests_request] at h'
    simp only [List.getElem?_map, h, Option.map_some'] at h'
    injection h' with h'
    subst h'
    exact rewriteImpExt_fields imp

/-- C9 witness: the sample request keeps its line-item count and the
line-item ID. -/
theorem makeRequests_frame_witness :
    (MakeRequests sampleAdapter sampleEnc sampleReq).request.imp.length =
      sampleReq.imp.length ∧
    (⟨"imp1", false, false,
        some (Json.obj [("mocktioneer", Json.obj [("bid", Json.num 5)])])⟩ : Imp).id =
      sampleBidImp.id := by
  have h := makeRequests_frame sampleAdapter sampleEnc sampleReq
  exact ⟨h.1, (h.2.2 0 sampleBidImp _ rfl rfl).1⟩

/-- C10: a request with no line items still succeeds: one outbound request
with the expanded configured template as URL, an empty covered-ID list,
and no errors. -/
theorem makeRequests_no_imps (a : Adapter)
    (enc : BidRequest → Except String Bytes) (req : BidRequest)
    (url : String) (body : Bytes) (himp : req.imp = [])
    (hres : a.endpoint.resolveEmpty = Except.ok url)
    (henc : enc { req with imp := ([] : List Imp) } = Except.ok body) :
    (MakeRequests a enc req).requests =
      [{ method := "POST", uri := url, body := body,
         headers := getHeaders { req with imp := ([] : List Imp) },
         impIDs := [] }] ∧
    (MakeRequests a enc req).errors = [] := by
  have hov : endpointOverride req.imp = "" := by
    rw [himp]
    rfl
  have henc' : enc { req with imp := req.imp.map rewriteImpExt } = Except.ok body := by
    rw [himp]
    exact henc
  rw [makeRequests_eq_ok a enc req url body hov hres henc']
  refine ⟨?_, rfl⟩
  simp [himp, GetImpIDs]

/-- C10 witness: the empty sample request. -/
theorem makeRequests_no_imps_witness :
    (MakeRequests sampleAdapter sampleEnc sampleEmptyReq).requests =
      [{ method := "POST", uri := "https://resolved.example/auction", body := [123],
         headers := getHeaders { sampleEmptyReq with imp := ([] : List Imp) },
         impIDs := [] }] ∧
    (MakeRequests sampleAdapter sampleEnc sampleEmptyReq).errors = [] :=
  makeRequests_no_imps sampleAdapter sampleEnc sampleEmptyReq
    "https://resolved.example/auction" [123] rfl rfl rfl

end Mocktioneer
